import Mathlib

/-!
Shallow embedding of `src/auto_print_pdfs.py`, a folder watcher that
submits new-or-changed PDF files to a printer.

Modelling conventions:
* file contents are byte lists (`List Nat`); a value `none` for
  `bytes`/`mtime`/`listing` models the corresponding Python call raising
  an exception (the script catches every such exception);
* modification times are naturals; the script only compares them with `<`;
* the Python dict `printed_files` is a function `String → Option Nat`;
* the external `lp` invocation is an oracle `pr : String → Bool` giving
  the success/failure of a submission for a path during one cycle.
-/

namespace AutoPrintPdfs

/-- The constant `PDF_MAGIC = b"%PDF-"` of the script, as bytes. -/
def PDF_MAGIC : List Nat := [37, 80, 68, 70, 45]

/-- The test `path.lower().endswith(".pdf")`: per-character ASCII
lowercasing of the path followed by the suffix test. -/
def lowerEndsWithPdf (path : String) : Bool :=
  List.isSuffixOf ['.', 'p', 'd', 'f'] (path.data.map Char.toLower)

/-- What the filesystem says about one path when it is inspected:
`isFile` is `os.path.isfile` (never raises), `bytes` the readable content
(`none` = `open`/`read` raises), `mtime` the modification time
(`none` = `os.path.getmtime` raises). -/
structure FileInfo where
  isFile : Bool
  bytes : Option (List Nat)
  mtime : Option Nat

/-- A snapshot of the watched directory for one cycle: `listing` is
`os.listdir(folder)` (`none` = it raises), `files` the per-path data. -/
structure FS where
  listing : Option (List String)
  files : String → FileInfo

/-- The join `os.path.join(folder, name)` for the relative names
`os.listdir` yields. -/
def joinPath (folder name : String) : String :=
  folder ++ "/" ++ name

/-- Function `is_pdf` of the script: reject non-`.pdf` names, else read the first
five bytes and compare with `PDF_MAGIC`; a read failure gives `False`. -/
def is_pdf (fs : FS) (path : String) : Bool :=
  if lowerEndsWithPdf path = false then false
  else
    match (fs.files path).bytes with
    | none => false
    | some bs => decide (bs.take 5 = PDF_MAGIC)

/-- Variant of `is_pdf` instrumented with a flag recording whether the file was
opened for reading: the script only opens the file in the branch where the
extension test has passed. -/
def is_pdf_traced (fs : FS) (path : String) : Bool × Bool :=
  if lowerEndsWithPdf path = false then (false, false)
  else
    match (fs.files path).bytes with
    | none => (false, true)
    | some bs => (decide (bs.take 5 = PDF_MAGIC), true)

/-- The argument list `cmd` built by `print_pdf` before `subprocess.run`:
`["lp", "-d", printer]`, then `-n copies` when `copies` is truthy and ≠ 1,
`-P pages` when `pages` is truthy, `-o sides=duplex` when `duplex` is
truthy, `-o fit-to-page` when `fit`, `-o media=media` when `media` is
truthy, and finally the path. -/
def print_cmd (path printer pages : String) (copies : Nat)
    (duplex : Option String) (fit : Bool) (media : Option String) :
    List String :=
  ["lp", "-d", printer]
    ++ (if copies ≠ 0 ∧ copies ≠ 1 then ["-n", toString copies] else [])
    ++ (if pages ≠ "" then ["-P", pages] else [])
    ++ (match duplex with
        | some d => if d ≠ "" then ["-o", "sides=" ++ d] else []
        | none => [])
    ++ (if fit then ["-o", "fit-to-page"] else [])
    ++ (match media with
        | some s => if s ≠ "" then ["-o", "media=" ++ s] else []
        | none => [])
    ++ [path]

/-- The submission command as §4.5/§6 of the spec describe it: printer,
copy count only if ≠ 1, page range if present, duplex mode if present, fit
flag if true, media if present, file path last.  Stated from the spec's
words, to be compared with `print_cmd`. -/
def specSubmissionCmd (path printer : String) (pages : Option String)
    (copies : Nat) (duplex : Option String) (fit : Bool)
    (media : Option String) : List String :=
  ["lp", "-d", printer]
    ++ (if copies ≠ 1 then ["-n", toString copies] else [])
    ++ (Option.elim pages [] (fun pg => ["-P", pg]))
    ++ (Option.elim duplex [] (fun d => ["-o", "sides=" ++ d]))
    ++ (if fit then ["-o", "fit-to-page"] else [])
    ++ (Option.elim media [] (fun s => ["-o", "media=" ++ s]))
    ++ [path]

/-- Value of `int(s)` on a digit string: base-10 value of the characters. -/
def natOfDigits (s : String) : Nat :=
  s.data.foldl (fun acc c => acc * 10 + (c.toNat - 48)) 0

/-- The test `s.isdigit()`: nonempty and every character a decimal digit. -/
def isDigitString (s : String) : Bool :=
  !s.data.isEmpty && s.data.all Char.isDigit

/-- The copies prompt loop of `get_print_options`, over the successive
(stripped) user inputs: blank gives the default 1, a digit string with a
positive value is accepted, anything else re-prompts; `none` means the
input list was exhausted while still re-prompting. -/
def copiesLoop : List String → Option Nat
  | [] => none
  | s :: rest =>
    if s = "" then some 1
    else if isDigitString s && decide (0 < natOfDigits s) then
      some (natOfDigits s)
    else copiesLoop rest

/-- The list `duplex_modes` of the script. -/
def duplex_modes : List String :=
  ["one-sided", "two-sided-long-edge", "two-sided-short-edge"]

/-- The duplex prompt loop of `get_print_options`: blank gives no duplex
option, a digit string in `1..3` selects the corresponding mode, anything
else re-prompts. -/
def duplexLoop : List String → Option (Option String)
  | [] => none
  | s :: rest =>
    if s = "" then some none
    else if isDigitString s && decide (1 ≤ natOfDigits s) &&
        decide (natOfDigits s ≤ 3) then
      some (some (duplex_modes.getD (natOfDigits s - 1) ""))
    else duplexLoop rest

/-- The fit prompt of `get_print_options`: `fit = (input.strip().lower() == "y")`. -/
def fitOfInput (s : String) : Bool :=
  decide (s.data.map Char.toLower = ['y'])

/-- The in-memory `printed_files` dict of `watch_folder`. -/
def History : Type := String → Option Nat

/-- The dict write `printed_files[path] = mtime`. -/
def updateHistory (h : History) (p : String) (m : Nat) : History :=
  fun q => if q = p then some m else h q

/-- The submit decision `path not in printed_files or printed_files[path] < mtime`. -/
def shouldSubmit (h : History) (p : String) (m : Nat) : Bool :=
  match h p with
  | none => true
  | some t => decide (t < m)

/-- Lines 145–146 of the script: after one submission with outcome `ok`,
the history is updated at `p` on success and untouched on failure. -/
def submitOutcome (h : History) (p : String) (m : Nat) (ok : Bool) : History :=
  if ok then updateHistory h p m else h

/-- Outcome of scanning one directory listing: the final history, the
paths submitted for printing in order, and whether an exception aborted
the scan. -/
structure ScanResult where
  hist : History
  submitted : List String
  scanError : Bool

/-- Record that `p` was submitted for printing before the rest of the
scan `r` happened. -/
def consSubmitted (p : String) (r : ScanResult) : ScanResult :=
  ⟨r.hist, p :: r.submitted, r.scanError⟩

/-- The body of the `for name in os.listdir(folder)` loop: skip non-files
and non-PDFs, read the mtime (an exception aborts the whole scan), submit
when `shouldSubmit`, and record the outcome via `submitOutcome`. -/
def processEntries (fs : FS) (folder : String) (pr : String → Bool) :
    List String → History → ScanResult
  | [], h => ⟨h, [], false⟩
  | name :: rest, h =>
    if (fs.files (joinPath folder name)).isFile = false then
      processEntries fs folder pr rest h
    else if is_pdf fs (joinPath folder name) = false then
      processEntries fs folder pr rest h
    else
      match (fs.files (joinPath folder name)).mtime with
      | none => ⟨h, [], true⟩
      | some m =>
        if shouldSubmit h (joinPath folder name) m then
          consSubmitted (joinPath folder name)
            (processEntries fs folder pr rest
              (submitOutcome h (joinPath folder name) m
                (pr (joinPath folder name))))
        else processEntries fs folder pr rest h

/-- One iteration of the `while True` loop: list the folder (an exception
gives an error cycle that changes nothing) and process the entries. -/
def runCycle (fs : FS) (folder : String) (pr : String → Bool)
    (h : History) : ScanResult :=
  match fs.listing with
  | none => ⟨h, [], true⟩
  | some names => processEntries fs folder pr names h

/-- The sleep `time.sleep(5)`: both the normal and the exception branch
sleep this fixed interval. -/
def SLEEP_INTERVAL : Nat := 5

/-- State carried across cycles: the history dict and the elapsed clock. -/
structure LoopState where
  history : History
  clock : Nat

/-- One full cycle of `watch_folder`, including the sleep. -/
def stepLoop (folder : String) (fs : FS) (pr : String → Bool)
    (s : LoopState) : LoopState :=
  { history := (runCycle fs folder pr s.history).hist,
    clock := s.clock + SLEEP_INTERVAL }

/-- The watch loop after `n` cycles, against per-cycle directory snapshots
`env` and per-cycle print outcomes `pr`. -/
def runLoop (folder : String) (env : Nat → FS) (pr : Nat → String → Bool)
    (h0 : History) : Nat → LoopState
  | 0 => { history := h0, clock := 0 }
  | n + 1 => stepLoop folder (env n) (pr n) (runLoop folder env pr h0 n)

/-- The submissions made during cycle `n` of the watch loop. -/
def cycleSubmitted (folder : String) (env : Nat → FS)
    (pr : Nat → String → Bool) (h0 : History) (n : Nat) : List String :=
  (runCycle (env n) folder (pr n) (runLoop folder env pr h0 n).history).submitted

/-- One history cell either stays put, or is (re)written with a value
strictly above everything it held before. -/
def HistStep (a b : Option Nat) : Prop :=
  a = b ∨ ∃ m, b = some m ∧ (a = none ∨ ∃ t, a = some t ∧ t < m)

/-- Fixture: a directory holding one well-formed PDF with mtime 10. -/
def demoFS : FS :=
  ⟨some ["a.pdf"], fun _ => ⟨true, some PDF_MAGIC, some 10⟩⟩

/-- Fixture: the same directory after the PDF was rewritten at mtime 20. -/
def demoFS20 : FS :=
  ⟨some ["a.pdf"], fun _ => ⟨true, some PDF_MAGIC, some 20⟩⟩

/-- Fixture: a directory whose enumeration raises. -/
def listFailFS : FS :=
  ⟨none, fun _ => ⟨true, none, none⟩⟩

/-- Fixture: a directory holding one PDF whose `getmtime` raises. -/
def statFailFS : FS :=
  ⟨some ["a.pdf"], fun _ => ⟨true, some PDF_MAGIC, none⟩⟩

/-- Fixture: the empty print history. -/
def emptyHistory : History := fun _ => none

/-! ### Helper lemmas -/

theorem consSubmitted_hist (p : String) (r : ScanResult) :
    (consSubmitted p r).hist = r.hist := rfl

theorem consSubmitted_submitted (p : String) (r : ScanResult) :
    (consSubmitted p r).submitted = p :: r.submitted := rfl

theorem consSubmitted_scanError (p : String) (r : ScanResult) :
    (consSubmitted p r).scanError = r.scanError := rfl

theorem shouldSubmit_iff (h : History) (p : String) (m : Nat) :
    shouldSubmit h p m = true ↔ h p = none ∨ ∃ t, h p = some t ∧ t < m := by
  unfold shouldSubmit
  cases hp : h p with
  | none => simp
  | some t => simp

theorem updateHistory_self (h : History) (p : String) (m : Nat) :
    updateHistory h p m p = some m := by
  simp [updateHistory]

theorem updateHistory_ne (h : History) (p q : String) (m : Nat)
    (hq : q ≠ p) : updateHistory h p m q = h q := by
  simp [updateHistory, hq]

theorem submitOutcome_ne (h : History) (p q : String) (m : Nat) (b : Bool)
    (hq : q ≠ p) : submitOutcome h p m b q = h q := by
  cases b <;> simp [submitOutcome, updateHistory, hq]

theorem submitOutcome_self (h : History) (p : String) (m : Nat) (b : Bool) :
    submitOutcome h p m b p = if b then some m else h p := by
  cases b <;> simp [submitOutcome, updateHistory]

theorem shouldSubmit_congr (h h' : History) (p : String) (m : Nat)
    (e : h' p = h p) : shouldSubmit h' p m = shouldSubmit h p m := by
  unfold shouldSubmit
  rw [e]

theorem processEntries_submitted_sub (fs : FS) (folder : String)
    (pr : String → Bool) :
    ∀ (names : List String) (h : History) (p : String),
      p ∈ (processEntries fs folder pr names h).submitted →
      p ∈ names.map (joinPath folder) := by
  intro names
  induction names with
  | nil => intro h p hp; simp [processEntries] at hp
  | cons name rest ih =>
    intro h p hp
    rw [List.map_cons, List.mem_cons]
    by_cases hF : (fs.files (joinPath folder name)).isFile = false
    · rw [processEntries, if_pos hF] at hp
      exact Or.inr (ih h p hp)
    · by_cases hP : is_pdf fs (joinPath folder name) = false
      · rw [processEntries, if_neg hF, if_pos hP] at hp
        exact Or.inr (ih h p hp)
      · rw [processEntries, if_neg hF, if_neg hP] at hp
        cases hM : (fs.files (joinPath folder name)).mtime with
        | none => rw [hM] at hp; simp at hp
        | some m =>
          rw [hM] at hp
          dsimp only at hp
          by_cases hS : shouldSubmit h (joinPath folder name) m = true
          · rw [if_pos hS, consSubmitted_submitted, List.mem_cons] at hp
            cases hp with
            | inl e => exact Or.inl e
            | inr e => exact Or.inr (ih _ p e)
          · rw [if_neg hS] at hp
            exact Or.inr (ih h p hp)

theorem processEntries_hist_frame (fs : FS) (folder : String)
    (pr : String → Bool) :
    ∀ (names : List String) (h : History) (q : String),
      q ∉ names.map (joinPath folder) →
      (processEntries fs folder pr names h).hist q = h q := by
  intro names
  induction names with
  | nil => intro h q _; rfl
  | cons name rest ih =>
    intro h q hq
    rw [List.map_cons, List.mem_cons, not_or] at hq
    obtain ⟨hq1, hq2⟩ := hq
    by_cases hF : (fs.files (joinPath folder name)).isFile = false
    · rw [processEntries, if_pos hF]; exact ih h q hq2
    · by_cases hP : is_pdf fs (joinPath folder name) = false
      · rw [processEntries, if_neg hF, if_pos hP]; exact ih h q hq2
      · rw [processEntries, if_neg hF, if_neg hP]
        cases hM : (fs.files (joinPath folder name)).mtime with
        | none => rfl
        | some m =>
          dsimp only
          by_cases hS : shouldSubmit h (joinPath folder name) m = true
          · rw [if_pos hS, consSubmitted_hist, ih _ q hq2]
            exact submitOutcome_ne h _ q m _ hq1
          · rw [if_neg hS]; exact ih h q hq2

theorem processEntries_submitted_nodup (fs : FS) (folder : String)
    (pr : String → Bool) :
    ∀ (names : List String) (h : History),
      (names.map (joinPath folder)).Nodup →
      (processEntries fs folder pr names h).submitted.Nodup := by
  intro names
  induction names with
  | nil => intro h _; simp [processEntries]
  | cons name rest ih =>
    intro h hnd
    rw [List.map_cons, List.nodup_cons] at hnd
    obtain ⟨hn1, hn2⟩ := hnd
    by_cases hF : (fs.files (joinPath folder name)).isFile = false
    · rw [processEntries, if_pos hF]; exact ih h hn2
    · by_cases hP : is_pdf fs (joinPath folder name) = false
      · rw [processEntries, if_neg hF, if_pos hP]; exact ih h hn2
      · rw [processEntries, if_neg hF, if_neg hP]
        cases hM : (fs.files (joinPath folder name)).mtime with
        | none => simp
        | some m =>
          dsimp only
          by_cases hS : shouldSubmit h (joinPath folder name) m = true
          · rw [if_pos hS, consSubmitted_submitted, List.nodup_cons]
            refine ⟨fun hmem => hn1 ?_, ih _ hn2⟩
            exact processEntries_submitted_sub fs folder pr rest _ _ hmem
          · rw [if_neg hS]; exact ih h hn2

theorem processEntries_submitted_sound (fs : FS) (folder : String)
    (pr : String → Bool) :
    ∀ (names : List String) (h : History) (p : String) (m : Nat),
      (names.map (joinPath folder)).Nodup →
      (fs.files p).mtime = some m →
      p ∈ (processEntries fs folder pr names h).submitted →
      shouldSubmit h p m = true := by
  intro names
  induction names with
  | nil => intro h p m _ _ hp; simp [processEntries] at hp
  | cons name rest ih =>
    intro h p m hnd hm hp
    rw [List.map_cons, List.nodup_cons] at hnd
    obtain ⟨hn1, hn2⟩ := hnd
    by_cases hF : (fs.files (joinPath folder name)).isFile = false
    · rw [processEntries, if_pos hF] at hp
      exact ih h p m hn2 hm hp
    · by_cases hP : is_pdf fs (joinPath folder name) = false
      · rw [processEntries, if_neg hF, if_pos hP] at hp
        exact ih h p m hn2 hm hp
      · rw [processEntries, if_neg hF, if_neg hP] at hp
        cases hM : (fs.files (joinPath folder name)).mtime with
        | none => rw [hM] at hp; simp at hp
        | some m' =>
          rw [hM] at hp
          dsimp only at hp
          by_cases hS : shouldSubmit h (joinPath folder name) m' = true
          · rw [if_pos hS, consSubmitted_submitted, List.mem_cons] at hp
            cases hp with
            | inl e =>
              subst e
              rw [hm] at hM
              rw [Option.some.injEq] at hM
              rw [hM]
              exact hS
            | inr e =>
              have hne : p ≠ joinPath folder name := by
                intro e2
                apply hn1
                rw [← e2]
                exact processEntries_submitted_sub fs folder pr rest _ p e
              have hrec := ih _ p m hn2 hm e
              rwa [shouldSubmit_congr h _ p m
                (submitOutcome_ne h (joinPath folder name) p m' _ hne)] at hrec
          · rw [if_neg hS] at hp
            exact ih h p m hn2 hm hp

theorem processEntries_submitted_complete (fs : FS) (folder : String)
    (pr : String → Bool) :
    ∀ (names : List String) (h : History) (name : String) (m : Nat),
      (processEntries fs folder pr names h).scanError = false →
      (names.map (joinPath folder)).Nodup →
      name ∈ names →
      (fs.files (joinPath folder name)).isFile = true →
      is_pdf fs (joinPath folder name) = true →
      (fs.files (joinPath folder name)).mtime = some m →
      shouldSubmit h (joinPath folder name) m = true →
      joinPath folder name ∈ (processEntries fs folder pr names h).submitted := by
  intro names
  induction names with
  | nil => intro h name m _ _ hmem; simp at hmem
  | cons name' rest ih =>
    intro h name m hE hnd hmem hFile hPdf hm hs
    rw [List.map_cons, List.nodup_cons] at hnd
    obtain ⟨hn1, hn2⟩ := hnd
    rcases List.mem_cons.mp hmem with e | hmem'
    · subst e
      have hF : ¬ (fs.files (joinPath folder name)).isFile = false := by
        simp [hFile]
      have hP : ¬ is_pdf fs (joinPath folder name) = false := by
        simp [hPdf]
      rw [processEntries, if_neg hF, if_neg hP, hm]
      dsimp only
      rw [if_pos hs, consSubmitted_submitted]
      exact List.mem_cons_self _ _
    · by_cases hF : (fs.files (joinPath folder name')).isFile = false
      · rw [processEntries, if_pos hF] at hE ⊢
        exact ih h name m hE hn2 hmem' hFile hPdf hm hs
      · by_cases hP : is_pdf fs (joinPath folder name') = false
        · rw [processEntries, if_neg hF, if_pos hP] at hE ⊢
          exact ih h name m hE hn2 hmem' hFile hPdf hm hs
        · cases hM : (fs.files (joinPath folder name')).mtime with
          | none =>
            rw [processEntries, if_neg hF, if_neg hP, hM] at hE
            dsimp only at hE
            exact absurd hE (by simp)
          | some m' =>
            rw [processEntries, if_neg hF, if_neg hP, hM] at hE ⊢
            dsimp only at hE ⊢
            by_cases hS : shouldSubmit h (joinPath folder name') m' = true
            · rw [if_pos hS] at hE ⊢
              rw [consSubmitted_scanError] at hE
              rw [consSubmitted_submitted]
              have hne : joinPath folder name ≠ joinPath folder name' := by
                intro e2
                apply hn1
                rw [← e2]
                exact List.mem_map_of_mem _ hmem'
              have hs' : shouldSubmit
                  (submitOutcome h (joinPath folder name') m'
                    (pr (joinPath folder name')))
                  (joinPath folder name) m = true := by
                rw [shouldSubmit_congr h _ (joinPath folder name) m
                  (submitOutcome_ne h (joinPath folder name')
                    (joinPath folder name) m' _ hne)]
                exact hs
              exact List.mem_cons_of_mem _
                (ih _ name m hE hn2 hmem' hFile hPdf hm hs')
            · rw [if_neg hS] at hE ⊢
              exact ih h name m hE hn2 hmem' hFile hPdf hm hs

theorem processEntries_hist_at (fs : FS) (folder : String)
    (pr : String → Bool) :
    ∀ (names : List String) (h : History) (name : String) (m : Nat),
      (processEntries fs folder pr names h).scanError = false →
      (names.map (joinPath folder)).Nodup →
      name ∈ names →
      (fs.files (joinPath folder name)).isFile = true →
      is_pdf fs (joinPath folder name) = true →
      (fs.files (joinPath folder name)).mtime = some m →
      (processEntries fs folder pr names h).hist (joinPath folder name)
        = if shouldSubmit h (joinPath folder name) m
            && pr (joinPath folder name)
          then some m else h (joinPath folder name) := by
  intro names
  induction names with
  | nil => intro h name m _ _ hmem; simp at hmem
  | cons name' rest ih =>
    intro h name m hE hnd hmem hFile hPdf hm
    rw [List.map_cons, List.nodup_cons] at hnd
    obtain ⟨hn1, hn2⟩ := hnd
    rcases List.mem_cons.mp hmem with e | hmem'
    · subst e
      have hF : ¬ (fs.files (joinPath folder name)).isFile = false := by
        simp [hFile]
      have hP : ¬ is_pdf fs (joinPath folder name) = false := by
        simp [hPdf]
      rw [processEntries, if_neg hF, if_neg hP, hm]
      dsimp only
      by_cases hS : shouldSubmit h (joinPath folder name) m = true
      · rw [if_pos hS, consSubmitted_hist,
          processEntries_hist_frame fs folder pr rest _ _ hn1,
          submitOutcome_self, hS]
        simp
      · rw [if_neg hS, processEntries_hist_frame fs folder pr rest _ _ hn1]
        rw [Bool.not_eq_true] at hS
        rw [hS]
        simp
    · by_cases hF : (fs.files (joinPath folder name')).isFile = false
      · rw [processEntries, if_pos hF] at hE ⊢
        exact ih h name m hE hn2 hmem' hFile hPdf hm
      · by_cases hP : is_pdf fs (joinPath folder name') = false
        · rw [processEntries, if_neg hF, if_pos hP] at hE ⊢
          exact ih h name m hE hn2 hmem' hFile hPdf hm
        · cases hM : (fs.files (joinPath folder name')).mtime with
          | none =>
            rw [processEntries, if_neg hF, if_neg hP, hM] at hE
            dsimp only at hE
            exact absurd hE (by simp)
          | some m' =>
            rw [processEntries, if_neg hF, if_neg hP, hM] at hE ⊢
            dsimp only at hE ⊢
            have hne : joinPath folder name ≠ joinPath folder name' := by
              intro e2
              apply hn1
              rw [← e2]
              exact List.mem_map_of_mem _ hmem'
            by_cases hS : shouldSubmit h (joinPath folder name') m' = true
            · rw [if_pos hS] at hE ⊢
              rw [consSubmitted_scanError] at hE
              rw [consSubmitted_hist]
              rw [ih _ name m hE hn2 hmem' hFile hPdf hm]
              rw [submitOutcome_ne h (joinPath folder name')
                (joinPath folder name) m' _ hne]
              rw [shouldSubmit_congr h _ (joinPath folder name) m
                (submitOutcome_ne h (joinPath folder name')
                  (joinPath folder name) m' _ hne)]
            · rw [if_neg hS] at hE ⊢
              exact ih h name m hE hn2 hmem' hFile hPdf hm

theorem histStep_trans {a b c : Option Nat} :
    HistStep a b → HistStep b c → HistStep a c := by
  intro h1 h2
  rcases h1 with rfl | ⟨m, rfl, hm⟩
  · exact h2
  · rcases h2 with rfl | ⟨m', rfl, hm'⟩
    · exact Or.inr ⟨m, rfl, hm⟩
    · refine Or.inr ⟨m', rfl, ?_⟩
      rcases hm with ha | ⟨t, ha, ht⟩
      · exact Or.inl ha
      · refine Or.inr ⟨t, ha, ?_⟩
        rcases hm' with hb | ⟨t', hb, ht'⟩
        · exact absurd hb (by simp)
        · rw [Option.some.injEq] at hb
          subst hb
          exact ht.trans ht'

theorem histStep_submitOutcome (h : History) (p : String) (m : Nat)
    (b : Bool) (hs : shouldSubmit h p m = true) (q : String) :
    HistStep (h q) (submitOutcome h p m b q) := by
  by_cases hq : q = p
  · subst hq
    cases b with
    | false => exact Or.inl rfl
    | true =>
      refine Or.inr ⟨m, updateHistory_self h q m, ?_⟩
      rcases (shouldSubmit_iff h q m).mp hs with hn | ⟨t, ht, hlt⟩
      · exact Or.inl hn
      · exact Or.inr ⟨t, ht, hlt⟩
  · rw [submitOutcome_ne h p q m b hq]
    exact Or.inl rfl

theorem processEntries_hist_mono (fs : FS) (folder : String)
    (pr : String → Bool) :
    ∀ (names : List String) (h : History) (q : String),
      HistStep (h q) ((processEntries fs folder pr names h).hist q) := by
  intro names
  induction names with
  | nil => intro h q; exact Or.inl rfl
  | cons name rest ih =>
    intro h q
    by_cases hF : (fs.files (joinPath folder name)).isFile = false
    · rw [processEntries, if_pos hF]; exact ih h q
    · by_cases hP : is_pdf fs (joinPath folder name) = false
      · rw [processEntries, if_neg hF, if_pos hP]; exact ih h q
      · rw [processEntries, if_neg hF, if_neg hP]
        cases hM : (fs.files (joinPath folder name)).mtime with
        | none => exact Or.inl rfl
        | some m =>
          dsimp only
          by_cases hS : shouldSubmit h (joinPath folder name) m = true
          · rw [if_pos hS, consSubmitted_hist]
            exact histStep_trans
              (histStep_submitOutcome h (joinPath folder name) m _ hS q)
              (ih _ q)
          · rw [if_neg hS]; exact ih h q

theorem runCycle_hist_mono (fs : FS) (folder : String)
    (pr : String → Bool) (h : History) (q : String) :
    HistStep (h q) ((runCycle fs folder pr h).hist q) := by
  unfold runCycle
  cases fs.listing with
  | none => exact Or.inl rfl
  | some names => exact processEntries_hist_mono fs folder pr names h q

theorem runCycle_eq (fs : FS) (folder : String) (pr : String → Bool)
    (h : History) (names : List String) (hl : fs.listing = some names) :
    runCycle fs folder pr h = processEntries fs folder pr names h := by
  unfold runCycle
  rw [hl]

/-! ### Claim theorems -/

/-- Claim C5: for a path with the case-insensitive `.pdf` suffix,
`is_pdf` returns true exactly when the file is readable and its first
five bytes are `%PDF-`; an unreadable or empty file gives false, and the
function is total (a read failure is absorbed, never re-raised). -/
theorem sniffer_pdf_spec (fs : FS) (p : String)
    (hext : lowerEndsWithPdf p = true) :
    (is_pdf fs p = true ↔
      ∃ bs, (fs.files p).bytes = some bs ∧ bs.take 5 = PDF_MAGIC) ∧
    ((fs.files p).bytes = none → is_pdf fs p = false) ∧
    ((fs.files p).bytes = some [] → is_pdf fs p = false) := by
  have hne : ¬ lowerEndsWithPdf p = false := by simp [hext]
  refine ⟨?_, ?_, ?_⟩
  · rw [is_pdf, if_neg hne]
    cases hb : (fs.files p).bytes with
    | none => simp
    | some bs =>
      dsimp only
      simp [PDF_MAGIC]
  · intro hb
    rw [is_pdf, if_neg hne, hb]
  · intro hb
    rw [is_pdf, if_neg hne, hb]
    simp [PDF_MAGIC]

theorem sniffer_pdf_spec_witness :
    lowerEndsWithPdf "Report.PDF" = true ∧
    (is_pdf ⟨none, fun _ => ⟨true, some PDF_MAGIC, none⟩⟩ "Report.PDF" = true ↔
      ∃ bs, ((⟨none, fun _ => ⟨true, some PDF_MAGIC, none⟩⟩ : FS).files
        "Report.PDF").bytes = some bs ∧ bs.take 5 = PDF_MAGIC) :=
  ⟨by decide,
   (sniffer_pdf_spec ⟨none, fun _ => ⟨true, some PDF_MAGIC, none⟩⟩
     "Report.PDF" (by decide)).1⟩

/-- Claim C6: a path without the case-insensitive `.pdf` suffix is never
printable and its content is never opened (the traced sniffer records no
read). -/
theorem sniffer_non_pdf_spec (fs : FS) (p : String)
    (hext : lowerEndsWithPdf p = false) :
    is_pdf fs p = false ∧ (is_pdf_traced fs p).2 = false := by
  constructor
  · rw [is_pdf, if_pos hext]
  · rw [is_pdf_traced, if_pos hext]

theorem sniffer_non_pdf_spec_witness :
    is_pdf ⟨none, fun _ => ⟨true, some PDF_MAGIC, none⟩⟩ "b.txt" = false ∧
    (is_pdf_traced ⟨none, fun _ => ⟨true, some PDF_MAGIC, none⟩⟩ "b.txt").2
      = false :=
  sniffer_non_pdf_spec ⟨none, fun _ => ⟨true, some PDF_MAGIC, none⟩⟩
    "b.txt" (by decide)

/-- Claim C1: in one cycle of the watch loop that scans without an
exception, a regular file passing the PDF sniffer with modification time
`m` is submitted for printing iff its path is absent from the history or
the stored timestamp is strictly below `m`. -/
theorem watch_submit_iff (fs : FS) (folder : String) (pr : String → Bool)
    (h : History) (names : List String) (name : String) (m : Nat)
    (hl : fs.listing = some names)
    (hnd : (names.map (joinPath folder)).Nodup)
    (hmem : name ∈ names)
    (hFile : (fs.files (joinPath folder name)).isFile = true)
    (hPdf : is_pdf fs (joinPath folder name) = true)
    (hm : (fs.files (joinPath folder name)).mtime = some m)
    (hE : (runCycle fs folder pr h).scanError = false) :
    joinPath folder name ∈ (runCycle fs folder pr h).submitted ↔
      (h (joinPath folder name) = none ∨
        ∃ t, h (joinPath folder name) = some t ∧ t < m) := by
  rw [runCycle_eq fs folder pr h names hl] at hE ⊢
  constructor
  · intro hin
    exact (shouldSubmit_iff h _ m).mp
      (processEntries_submitted_sound fs folder pr names h _ m hnd hm hin)
  · intro hcond
    exact processEntries_submitted_complete fs folder pr names h name m hE hnd
      hmem hFile hPdf hm ((shouldSubmit_iff h _ m).mpr hcond)

theorem watch_submit_iff_witness :
    joinPath "watch" "a.pdf" ∈
      (runCycle ⟨some ["a.pdf"], fun _ => ⟨true, some PDF_MAGIC, some 10⟩⟩
        "watch" (fun _ => true) (fun _ => none)).submitted ↔
      ((fun _ => none : History) (joinPath "watch" "a.pdf") = none ∨
        ∃ t, (fun _ => none : History) (joinPath "watch" "a.pdf") = some t ∧
          t < 10) :=
  watch_submit_iff ⟨some ["a.pdf"], fun _ => ⟨true, some PDF_MAGIC, some 10⟩⟩
    "watch" (fun _ => true) (fun _ => none) ["a.pdf"] "a.pdf" 10
    rfl (by decide) (by decide) rfl (by decide) rfl (by decide)

/-- Claim C10: across any cycle of the watch loop, each history cell
either keeps its value or is written with a value strictly above
everything it held; no cell is ever lowered or removed. -/
theorem history_monotone (folder : String) (env : Nat → FS)
    (pr : Nat → String → Bool) (h0 : History) (n : Nat) (q : String) :
    HistStep ((runLoop folder env pr h0 n).history q)
      ((runLoop folder env pr h0 (n + 1)).history q) :=
  runCycle_hist_mono (env n) folder (pr n)
    (runLoop folder env pr h0 n).history q

/-- Claim C2: when a sniffed file with modification time `m` is submitted
during a clean cycle, a successful print stores `m` for its path; a failed
print changes nothing (the per-submission update `submitOutcome` with
outcome `false` is the identity, and the cycle leaves the path's entry as
it was), so a later cycle that still observes `m` resubmits the file. -/
theorem submission_outcome_spec
    (fs1 fs2 : FS) (folder : String) (pr1 pr2 : String → Bool)
    (h : History) (names1 names2 : List String) (name : String) (m : Nat)
    (hl1 : fs1.listing = some names1)
    (hnd1 : (names1.map (joinPath folder)).Nodup)
    (hmem1 : name ∈ names1)
    (hFile1 : (fs1.files (joinPath folder name)).isFile = true)
    (hPdf1 : is_pdf fs1 (joinPath folder name) = true)
    (hm1 : (fs1.files (joinPath folder name)).mtime = some m)
    (hE1 : (runCycle fs1 folder pr1 h).scanError = false)
    (hsub : joinPath folder name ∈ (runCycle fs1 folder pr1 h).submitted)
    (hl2 : fs2.listing = some names2)
    (hnd2 : (names2.map (joinPath folder)).Nodup)
    (hmem2 : name ∈ names2)
    (hFile2 : (fs2.files (joinPath folder name)).isFile = true)
    (hPdf2 : is_pdf fs2 (joinPath folder name) = true)
    (hm2 : (fs2.files (joinPath folder name)).mtime = some m)
    (hE2 : (runCycle fs2 folder pr2
      (runCycle fs1 folder pr1 h).hist).scanError = false) :
    (pr1 (joinPath folder name) = true →
      (runCycle fs1 folder pr1 h).hist (joinPath folder name) = some m) ∧
    (pr1 (joinPath folder name) = false →
      (∀ h' : History, submitOutcome h' (joinPath folder name) m false = h') ∧
      (runCycle fs1 folder pr1 h).hist (joinPath folder name)
        = h (joinPath folder name) ∧
      joinPath folder name ∈
        (runCycle fs2 folder pr2 (runCycle fs1 folder pr1 h).hist).submitted) := by
  have hq1 := runCycle_eq fs1 folder pr1 h names1 hl1
  rw [hq1] at hE1 hsub hE2 ⊢
  have hq2 := runCycle_eq fs2 folder pr2
    (processEntries fs1 folder pr1 names1 h).hist names2 hl2
  rw [hq2] at hE2 ⊢
  have hS : shouldSubmit h (joinPath folder name) m = true :=
    processEntries_submitted_sound fs1 folder pr1 names1 h _ m hnd1 hm1 hsub
  have hhist := processEntries_hist_at fs1 folder pr1 names1 h name m hE1
    hnd1 hmem1 hFile1 hPdf1 hm1
  constructor
  · intro hok
    rw [hhist, hS, hok]
    simp
  · intro hfail
    have hmain : (processEntries fs1 folder pr1 names1 h).hist
        (joinPath folder name) = h (joinPath folder name) := by
      rw [hhist, hfail]
      simp
    refine ⟨fun h' => rfl, hmain, ?_⟩
    have hS' : shouldSubmit ((processEntries fs1 folder pr1 names1 h).hist)
        (joinPath folder name) m = true := by
      rw [shouldSubmit_congr h _ _ m hmain]
      exact hS
    exact processEntries_submitted_complete fs2 folder pr2 names2 _ name m hE2
      hnd2 hmem2 hFile2 hPdf2 hm2 hS'

theorem submission_outcome_spec_witness :
    submitOutcome emptyHistory (joinPath "w" "a.pdf") 10 false
      = emptyHistory ∧
    (runCycle demoFS "w" (fun _ => false) emptyHistory).hist
      (joinPath "w" "a.pdf") = emptyHistory (joinPath "w" "a.pdf") ∧
    joinPath "w" "a.pdf" ∈
      (runCycle demoFS "w" (fun _ => true)
        (runCycle demoFS "w" (fun _ => false) emptyHistory).hist).submitted :=
  ⟨((submission_outcome_spec demoFS demoFS "w" (fun _ => false)
      (fun _ => true) emptyHistory ["a.pdf"] ["a.pdf"] "a.pdf" 10
      rfl (by decide) (by decide) rfl (by decide) rfl (by decide) (by decide)
      rfl (by decide) (by decide) rfl (by decide) rfl (by decide)).2
      rfl).1 emptyHistory,
   ((submission_outcome_spec demoFS demoFS "w" (fun _ => false)
      (fun _ => true) emptyHistory ["a.pdf"] ["a.pdf"] "a.pdf" 10
      rfl (by decide) (by decide) rfl (by decide) rfl (by decide) (by decide)
      rfl (by decide) (by decide) rfl (by decide) rfl (by decide)).2
      rfl).2.1,
   ((submission_outcome_spec demoFS demoFS "w" (fun _ => false)
      (fun _ => true) emptyHistory ["a.pdf"] ["a.pdf"] "a.pdf" 10
      rfl (by decide) (by decide) rfl (by decide) rfl (by decide) (by decide)
      rfl (by decide) (by decide) rfl (by decide) rfl (by decide)).2
      rfl).2.2⟩

/-- Claim C3: a file whose submission succeeded in one clean cycle and
whose modification time is unchanged at the next cycle is not resubmitted
there. -/
theorem idempotent_success
    (fs1 fs2 : FS) (folder : String) (pr1 pr2 : String → Bool)
    (h : History) (names1 names2 : List String) (name : String) (m : Nat)
    (hl1 : fs1.listing = some names1)
    (hnd1 : (names1.map (joinPath folder)).Nodup)
    (hmem1 : name ∈ names1)
    (hFile1 : (fs1.files (joinPath folder name)).isFile = true)
    (hPdf1 : is_pdf fs1 (joinPath folder name) = true)
    (hm1 : (fs1.files (joinPath folder name)).mtime = some m)
    (hE1 : (runCycle fs1 folder pr1 h).scanError = false)
    (hsub : joinPath folder name ∈ (runCycle fs1 folder pr1 h).submitted)
    (hok : pr1 (joinPath folder name) = true)
    (hl2 : fs2.listing = some names2)
    (hnd2 : (names2.map (joinPath folder)).Nodup)
    (hm2 : (fs2.files (joinPath folder name)).mtime = some m) :
    joinPath folder name ∉
      (runCycle fs2 folder pr2 (runCycle fs1 folder pr1 h).hist).submitted := by
  have hq1 := runCycle_eq fs1 folder pr1 h names1 hl1
  rw [hq1] at hE1 hsub ⊢
  have hq2 := runCycle_eq fs2 folder pr2
    (processEntries fs1 folder pr1 names1 h).hist names2 hl2
  rw [hq2]
  have hS : shouldSubmit h (joinPath folder name) m = true :=
    processEntries_submitted_sound fs1 folder pr1 names1 h _ m hnd1 hm1 hsub
  have hhist : (processEntries fs1 folder pr1 names1 h).hist
      (joinPath folder name) = some m := by
    rw [processEntries_hist_at fs1 folder pr1 names1 h name m hE1 hnd1 hmem1
      hFile1 hPdf1 hm1, hS, hok]
    simp
  intro hin
  have hS2 := processEntries_submitted_sound fs2 folder pr2 names2 _ _ m
    hnd2 hm2 hin
  rw [shouldSubmit_iff] at hS2
  rcases hS2 with hnone | ⟨t, ht, hlt⟩
  · rw [hhist] at hnone
    exact Option.noConfusion hnone
  · rw [hhist, Option.some.injEq] at ht
    subst ht
    exact lt_irrefl m hlt

theorem idempotent_success_witness :
    joinPath "w" "a.pdf" ∉
      (runCycle demoFS "w" (fun _ => true)
        (runCycle demoFS "w" (fun _ => true) emptyHistory).hist).submitted :=
  idempotent_success demoFS demoFS "w" (fun _ => true) (fun _ => true)
    emptyHistory ["a.pdf"] ["a.pdf"] "a.pdf" 10
    rfl (by decide) (by decide) rfl (by decide) rfl (by decide) (by decide)
    rfl rfl (by decide) rfl

/-- Claim C4: a file whose history holds `M` and whose on-disk time is now
`M' > M` is submitted exactly once in the clean cycle that observes `M'`;
a successful print stores `M'`, and a following cycle still observing `M'`
does not resubmit it. -/
theorem change_detection
    (fs1 fs2 : FS) (folder : String) (pr1 pr2 : String → Bool)
    (h : History) (names1 names2 : List String) (name : String)
    (M M' : Nat)
    (hold : h (joinPath folder name) = some M)
    (hMM : M < M')
    (hl1 : fs1.listing = some names1)
    (hnd1 : (names1.map (joinPath folder)).Nodup)
    (hmem1 : name ∈ names1)
    (hFile1 : (fs1.files (joinPath folder name)).isFile = true)
    (hPdf1 : is_pdf fs1 (joinPath folder name) = true)
    (hm1 : (fs1.files (joinPath folder name)).mtime = some M')
    (hE1 : (runCycle fs1 folder pr1 h).scanError = false)
    (hok : pr1 (joinPath folder name) = true)
    (hl2 : fs2.listing = some names2)
    (hnd2 : (names2.map (joinPath folder)).Nodup)
    (hm2 : (fs2.files (joinPath folder name)).mtime = some M') :
    (runCycle fs1 folder pr1 h).submitted.count (joinPath folder name) = 1 ∧
    (runCycle fs1 folder pr1 h).hist (joinPath folder name) = some M' ∧
    joinPath folder name ∉
      (runCycle fs2 folder pr2 (runCycle fs1 folder pr1 h).hist).submitted := by
  have hq1 := runCycle_eq fs1 folder pr1 h names1 hl1
  rw [hq1] at hE1 ⊢
  have hq2 := runCycle_eq fs2 folder pr2
    (processEntries fs1 folder pr1 names1 h).hist names2 hl2
  rw [hq2]
  have hS : shouldSubmit h (joinPath folder name) M' = true :=
    (shouldSubmit_iff h _ M').mpr (Or.inr ⟨M, hold, hMM⟩)
  have hmem := processEntries_submitted_complete fs1 folder pr1 names1 h
    name M' hE1 hnd1 hmem1 hFile1 hPdf1 hm1 hS
  have hhist : (processEntries fs1 folder pr1 names1 h).hist
      (joinPath folder name) = some M' := by
    rw [processEntries_hist_at fs1 folder pr1 names1 h name M' hE1 hnd1
      hmem1 hFile1 hPdf1 hm1, hS, hok]
    simp
  refine ⟨List.count_eq_one_of_mem
    (processEntries_submitted_nodup fs1 folder pr1 names1 h hnd1) hmem,
    hhist, ?_⟩
  intro hin
  have hS2 := processEntries_submitted_sound fs2 folder pr2 names2 _ _ M'
    hnd2 hm2 hin
  rw [shouldSubmit_iff] at hS2
  rcases hS2 with hnone | ⟨t, ht, hlt⟩
  · rw [hhist] at hnone
    exact Option.noConfusion hnone
  · rw [hhist, Option.some.injEq] at ht
    subst ht
    exact lt_irrefl M' hlt

theorem change_detection_witness :
    (runCycle demoFS20 "w" (fun _ => true)
      (updateHistory emptyHistory (joinPath "w" "a.pdf") 10)).submitted.count
      (joinPath "w" "a.pdf") = 1 ∧
    (runCycle demoFS20 "w" (fun _ => true)
      (updateHistory emptyHistory (joinPath "w" "a.pdf") 10)).hist
      (joinPath "w" "a.pdf") = some 20 ∧
    joinPath "w" "a.pdf" ∉
      (runCycle demoFS20 "w" (fun _ => true)
        (runCycle demoFS20 "w" (fun _ => true)
          (updateHistory emptyHistory (joinPath "w" "a.pdf") 10)).hist).submitted :=
  change_detection demoFS20 demoFS20 "w" (fun _ => true) (fun _ => true)
    (updateHistory emptyHistory (joinPath "w" "a.pdf") 10)
    ["a.pdf"] ["a.pdf"] "a.pdf" 10 20
    (by decide) (by decide)
    rfl (by decide) (by decide) rfl (by decide) rfl (by decide) rfl
    rfl (by decide) rfl

/-- Claim C8: exceptions during directory enumeration or mtime reading are
absorbed by the loop: every cycle, error or not, advances the clock by the
fixed sleep interval and the loop goes on; an enumeration failure leaves
the history untouched and submits nothing; an mtime failure at the head of
the listing aborts the scan with the history untouched, nothing submitted,
and the error flagged. -/
theorem scan_error_resilience
    (folder : String) (env : Nat → FS) (pr : Nat → String → Bool)
    (h0 : History) (n : Nat) (fs : FS) (prc : String → Bool) (h : History)
    (name : String) (rest : List String) :
    ((runLoop folder env pr h0 (n + 1)).clock
      = (runLoop folder env pr h0 n).clock + SLEEP_INTERVAL) ∧
    ((env n).listing = none →
      (runLoop folder env pr h0 (n + 1)).history
        = (runLoop folder env pr h0 n).history ∧
      cycleSubmitted folder env pr h0 n = [] ∧
      (runCycle (env n) folder (pr n)
        (runLoop folder env pr h0 n).history).scanError = true) ∧
    ((fs.files (joinPath folder name)).isFile = true →
      is_pdf fs (joinPath folder name) = true →
      (fs.files (joinPath folder name)).mtime = none →
      processEntries fs folder prc (name :: rest) h = ⟨h, [], true⟩) := by
  refine ⟨rfl, ?_, ?_⟩
  · intro hl
    have e : runCycle (env n) folder (pr n)
        (runLoop folder env pr h0 n).history
        = ⟨(runLoop folder env pr h0 n).history, [], true⟩ := by
      unfold runCycle
      rw [hl]
    refine ⟨?_, ?_, ?_⟩
    · show (runCycle (env n) folder (pr n)
        (runLoop folder env pr h0 n).history).hist = _
      rw [e]
    · show (runCycle (env n) folder (pr n)
        (runLoop folder env pr h0 n).history).submitted = []
      rw [e]
    · rw [e]
  · intro hF hP hM
    have hF' : ¬ (fs.files (joinPath folder name)).isFile = false := by
      simp [hF]
    have hP' : ¬ is_pdf fs (joinPath folder name) = false := by
      simp [hP]
    rw [processEntries, if_neg hF', if_neg hP', hM]

theorem scan_error_resilience_witness :
    ((runLoop "w" (fun _ => listFailFS) (fun _ _ => true) emptyHistory 1).clock
      = (runLoop "w" (fun _ => listFailFS) (fun _ _ => true)
          emptyHistory 0).clock + SLEEP_INTERVAL) ∧
    (runLoop "w" (fun _ => listFailFS) (fun _ _ => true)
        emptyHistory 1).history
      = (runLoop "w" (fun _ => listFailFS) (fun _ _ => true)
          emptyHistory 0).history ∧
    cycleSubmitted "w" (fun _ => listFailFS) (fun _ _ => true)
      emptyHistory 0 = [] ∧
    processEntries statFailFS "w" (fun _ => true) ["a.pdf"] emptyHistory
      = ⟨emptyHistory, [], true⟩ :=
  ⟨(scan_error_resilience "w" (fun _ => listFailFS) (fun _ _ => true)
      emptyHistory 0 statFailFS (fun _ => true) emptyHistory "a.pdf" []).1,
   ((scan_error_resilience "w" (fun _ => listFailFS) (fun _ _ => true)
      emptyHistory 0 statFailFS (fun _ => true) emptyHistory "a.pdf" []).2.1
      rfl).1,
   ((scan_error_resilience "w" (fun _ => listFailFS) (fun _ _ => true)
      emptyHistory 0 statFailFS (fun _ => true) emptyHistory "a.pdf" []).2.1
      rfl).2.1,
   (scan_error_resilience "w" (fun _ => listFailFS) (fun _ _ => true)
      emptyHistory 0 statFailFS (fun _ => true) emptyHistory "a.pdf" []).2.2
      rfl (by decide) rfl⟩

/-- Claim C7: for a valid option set (copies positive, any supplied
duplex or media value nonempty), the command built by `print_pdf` is
exactly the spec's submission request — printer always, copies flag iff
copies ≠ 1, page range iff present, duplex iff present, fit iff set,
media iff present — with the printer name in it and the file path as the
final argument. -/
theorem submission_cmd_spec (path printer pages : String) (copies : Nat)
    (duplex : Option String) (fit : Bool) (media : Option String)
    (hc : copies ≠ 0)
    (hd : ∀ d, duplex = some d → d ≠ "")
    (hmed : ∀ s, media = some s → s ≠ "") :
    print_cmd path printer pages copies duplex fit media
      = specSubmissionCmd path printer
          (if pages = "" then none else some pages) copies duplex fit media ∧
    (print_cmd path printer pages copies duplex fit media).getLast?
      = some path ∧
    printer ∈ print_cmd path printer pages copies duplex fit media := by
  refine ⟨?_, ?_, ?_⟩
  · rcases duplex with _ | d
    · rcases media with _ | s
      · unfold print_cmd specSubmissionCmd
        by_cases h1 : copies = 1 <;> by_cases hp : pages = "" <;>
          simp [h1, hp, hc, Option.elim]
      · have hs : s ≠ "" := hmed s rfl
        unfold print_cmd specSubmissionCmd
        by_cases h1 : copies = 1 <;> by_cases hp : pages = "" <;>
          simp [h1, hp, hc, hs, Option.elim]
    · have hdd : d ≠ "" := hd d rfl
      rcases media with _ | s
      · unfold print_cmd specSubmissionCmd
        by_cases h1 : copies = 1 <;> by_cases hp : pages = "" <;>
          simp [h1, hp, hc, hdd, Option.elim]
      · have hs : s ≠ "" := hmed s rfl
        unfold print_cmd specSubmissionCmd
        by_cases h1 : copies = 1 <;> by_cases hp : pages = "" <;>
          simp [h1, hp, hc, hdd, hs, Option.elim]
  · unfold print_cmd
    exact List.getLast?_concat _
  · unfold print_cmd
    simp

theorem submission_cmd_spec_witness :
    print_cmd "f.pdf" "office" "1-2" 3 (some "two-sided-long-edge") true
        (some "A4")
      = specSubmissionCmd "f.pdf" "office"
          (if ("1-2" : String) = "" then none else some "1-2") 3
          (some "two-sided-long-edge") true (some "A4") ∧
    (print_cmd "f.pdf" "office" "1-2" 3 (some "two-sided-long-edge") true
        (some "A4")).getLast? = some "f.pdf" ∧
    "office" ∈ print_cmd "f.pdf" "office" "1-2" 3
        (some "two-sided-long-edge") true (some "A4") :=
  submission_cmd_spec "f.pdf" "office" "1-2" 3 (some "two-sided-long-edge")
    true (some "A4") (by decide)
    (by intro d e; rw [Option.some.injEq] at e; subst e; decide)
    (by intro s e; rw [Option.some.injEq] at e; subst e; decide)

/-- Claim C9: the option prompts validate each field independently: a
blank copies input yields the default 1, every accepted copies value is a
positive integer, an invalid copies input only re-prompts, every accepted
duplex value is blank or one of the three enumerated modes, an invalid
duplex input only re-prompts, and the fit flag defaults to false on a
blank input. -/
theorem options_validation_spec :
    (∀ rest, copiesLoop ("" :: rest) = some 1) ∧
    (∀ inputs c, copiesLoop inputs = some c → 0 < c) ∧
    (∀ s rest, s ≠ "" →
      ¬ (isDigitString s && decide (0 < natOfDigits s)) = true →
      copiesLoop (s :: rest) = copiesLoop rest) ∧
    (∀ inputs d, duplexLoop inputs = some d →
      d = none ∨ ∃ mode, mode ∈ duplex_modes ∧ d = some mode) ∧
    (∀ s rest, s ≠ "" →
      ¬ (isDigitString s && decide (1 ≤ natOfDigits s) &&
          decide (natOfDigits s ≤ 3)) = true →
      duplexLoop (s :: rest) = duplexLoop rest) ∧
    fitOfInput "" = false := by
  refine ⟨?_, ?_, ?_, ?_, ?_, ?_⟩
  · intro rest
    rw [copiesLoop, if_pos rfl]
  · intro inputs
    induction inputs with
    | nil => intro c hc; simp [copiesLoop] at hc
    | cons s rest ih =>
      intro c hc
      rw [copiesLoop] at hc
      by_cases hs : s = ""
      · rw [if_pos hs] at hc
        rw [Option.some.injEq] at hc
        omega
      · rw [if_neg hs] at hc
        by_cases hv : (isDigitString s && decide (0 < natOfDigits s)) = true
        · rw [if_pos hv] at hc
          rw [Option.some.injEq] at hc
          rw [Bool.and_eq_true, decide_eq_true_iff] at hv
          omega
        · rw [if_neg hv] at hc
          exact ih c hc
  · intro s rest hs hv
    rw [copiesLoop, if_neg hs, if_neg hv]
  · intro inputs
    induction inputs with
    | nil => intro d hd; simp [duplexLoop] at hd
    | cons s rest ih =>
      intro d hd
      rw [duplexLoop] at hd
      by_cases hs : s = ""
      · rw [if_pos hs] at hd
        rw [Option.some.injEq] at hd
        exact Or.inl hd.symm
      · rw [if_neg hs] at hd
        by_cases hv : (isDigitString s && decide (1 ≤ natOfDigits s) &&
            decide (natOfDigits s ≤ 3)) = true
        · rw [if_pos hv] at hd
          rw [Option.some.injEq] at hd
          rw [Bool.and_eq_true, Bool.and_eq_true, decide_eq_true_iff,
            decide_eq_true_iff] at hv
          have hlt : natOfDigits s - 1 < duplex_modes.length := by
            simp only [duplex_modes, List.length_cons, List.length_nil]
            omega
          refine Or.inr ⟨duplex_modes.getD (natOfDigits s - 1) "", ?_, hd.symm⟩
          rw [List.getD_eq_getElem duplex_modes "" hlt]
          exact List.getElem_mem hlt
        · rw [if_neg hv] at hd
          exact ih d hd
  · intro s rest hs hv
    rw [duplexLoop, if_neg hs, if_neg hv]
  · decide

theorem options_validation_spec_witness :
    copiesLoop ("" :: ["7"]) = some 1 ∧
    0 < 3 ∧
    copiesLoop ("abc" :: ["3"]) = copiesLoop ["3"] ∧
    ((some "one-sided" : Option String) = none ∨
      ∃ mode, mode ∈ duplex_modes ∧
        (some "one-sided" : Option String) = some mode) ∧
    duplexLoop ("9" :: [""]) = duplexLoop [""] ∧
    fitOfInput "" = false :=
  ⟨options_validation_spec.1 ["7"],
   options_validation_spec.2.1 ["3"] 3 (by decide),
   options_validation_spec.2.2.1 "abc" ["3"] (by decide) (by decide),
   options_validation_spec.2.2.2.1 ["1"] (some "one-sided") (by decide),
   options_validation_spec.2.2.2.2.1 "9" [""] (by decide) (by decide),
   options_validation_spec.2.2.2.2.2⟩

end AutoPrintPdfs
